import Mathlib

/-!
Verification of `lucklove/atomic128` (src/src/lib.rs), a 128-bit atomic
value built on the x86-64 `cmpxchg16b` double-word compare-and-swap
instruction.

Embedding choices:
* `AtomicU128` mirrors the Rust struct: two unsigned 64-bit halves.
  No operation of the library performs arithmetic on the halves — they are
  only copied and compared for equality — so the halves are modelled as
  `Nat` (a `u64` bit pattern corresponds injectively to a `Nat` and
  equality of bit patterns is equality of the `Nat`s).
* The library is single-location: every method acts on one shared cell.
  Methods are embedded by explicit state passing: a function from the
  cell's prior contents (plus the Rust arguments) to the pair of the Rust
  return value and the cell's new contents.
* `cas128` in the source is inline assembly (`lock cmpxchg16b`); its
  semantics is that of the hardware instruction, modelled here as one
  indivisible transition (see `cas128` below).
* The `while !cas128(...)` retry loops of `store` and `swap` are embedded
  with explicit fuel (`storeLoop`): `none` means the loop had not yet
  succeeded after `fuel` CAS attempts.
-/

/-- The Rust struct `AtomicU128 { lo: u64, hi: u64 }`: a 128-bit value as
two unsigned 64-bit halves. -/
structure AtomicU128 where
  lo : Nat
  hi : Nat
deriving DecidableEq, Repr

/-- `AtomicU128::new(lo, hi)`. -/
def AtomicU128.new (lo hi : Nat) : AtomicU128 :=
  ⟨lo, hi⟩

/-- `AtomicU128::zero()`: the zero value `(lo = 0, hi = 0)`. -/
def AtomicU128.zero : AtomicU128 :=
  ⟨0, 0⟩

/-- The `PartialEq` impl for `AtomicU128`:
`self.lo == other.lo && self.hi == other.hi`. -/
def AtomicU128.eq (a b : AtomicU128) : Bool :=
  a.lo == b.lo && a.hi == b.hi

/-- The `Default` impl for `AtomicU128`: the zero value. -/
def AtomicU128.defaultVal : AtomicU128 :=
  AtomicU128.zero

/-- Post-state of one `cas128` call: the returned flag (`setz`), the new
contents of the target location `src`, and the new contents of the
caller's `cmp` (expected) slot, which the instruction loads into
`rdx:rax` and writes back. -/
structure Cas128Result where
  ok : Bool
  mem : AtomicU128
  cmp : AtomicU128
deriving DecidableEq, Repr

/-- Modelled from the spec: `fn cas128(src, cmp, with) -> bool` in the
source is inline assembly (`lock cmpxchg16b $3; setz $0` with `cmp` in
`rdx:rax`, `with` in `rcx:rbx`), so its behaviour is the hardware
contract of `cmpxchg16b`, which the spec states as: atomically compare
the location's contents `mem` to the expected value `cmp`; if equal,
write the desired value `w` and report success (the `rdx:rax` slot is
left holding its input, which equals `mem`); if not equal, leave the
location unchanged, report failure, and write the location's actual
current value into the `rdx:rax` slot. The Rust argument `with` is a
Lean keyword and is named `w` here. -/
def cas128 (mem cmp w : AtomicU128) : Cas128Result :=
  if mem = cmp then ⟨true, w, cmp⟩ else ⟨false, mem, mem⟩

/-- `AtomicU128::load(&self)`: `let mut ret = Self::zero();
cas128(self, &mut ret, Self::zero()); ret`. Returns the pair
(Rust return value, new cell contents). -/
def AtomicU128.load (mem : AtomicU128) : AtomicU128 × AtomicU128 :=
  let r := cas128 mem AtomicU128.zero AtomicU128.zero
  (r.cmp, r.mem)

/-- The `while !cas128(self, &mut current, val) {}` retry loop shared by
`store` and `swap`, with explicit fuel. On success within `fuel`
attempts, returns `some (mem', prev)` where `mem'` is the cell's new
contents and `prev` is the value the `current` slot held at the
successful attempt (the value `swap` returns); `none` means the loop
had not yet succeeded after `fuel` attempts. -/
def storeLoop : Nat → AtomicU128 → AtomicU128 → AtomicU128 → Option (AtomicU128 × AtomicU128)
  | 0, _, _, _ => none
  | fuel + 1, mem, cur, val =>
    let r := cas128 mem cur val
    if r.ok then some (r.mem, cur) else storeLoop fuel r.mem r.cmp val

/-- `AtomicU128::store(&self, val)`: the retry loop started with
`current = Self::zero()`; returns the cell's new contents (the Rust
method returns `()`), or `none` if `fuel` attempts did not suffice. -/
def AtomicU128.store (fuel : Nat) (mem val : AtomicU128) : Option AtomicU128 :=
  (storeLoop fuel mem AtomicU128.zero val).map Prod.fst

/-- `AtomicU128::swap(&self, val)`: the retry loop started with
`prev = Self::zero()`; returns `some (ret, mem')` where `ret` is the
Rust return value (`prev` after the successful attempt) and `mem'` the
cell's new contents, or `none` if `fuel` attempts did not suffice. -/
def AtomicU128.swap (fuel : Nat) (mem val : AtomicU128) : Option (AtomicU128 × AtomicU128) :=
  (storeLoop fuel mem AtomicU128.zero val).map fun p => (p.2, p.1)

/-- `AtomicU128::compare_and_swap(&self, current, new)`:
`let mut current = current; cas128(self, &mut current, new); current`.
Returns the pair (Rust return value, new cell contents). -/
def AtomicU128.compare_and_swap (mem cur new : AtomicU128) : AtomicU128 × AtomicU128 :=
  let r := cas128 mem cur new
  (r.cmp, r.mem)

/-- `AtomicU128::compare_exchange(&self, current, new)`:
`if cas128(self, &mut current, new) { Ok(current) } else { Err(current) }`.
`Ok`/`Err` are modelled by `Except.ok`/`Except.error`. Returns the pair
(Rust return value, new cell contents). -/
def AtomicU128.compare_exchange (mem cur new : AtomicU128) :
    Except AtomicU128 AtomicU128 × AtomicU128 :=
  let r := cas128 mem cur new
  (if r.ok then Except.ok r.cmp else Except.error r.cmp, r.mem)

/-- `AtomicU128::compare_exchange_weak(&self, current, new)`:
`self.compare_exchange(current, new)`. -/
def AtomicU128.compare_exchange_weak (mem cur new : AtomicU128) :
    Except AtomicU128 AtomicU128 × AtomicU128 :=
  AtomicU128.compare_exchange mem cur new

/-- The value carried by a `compare_exchange` result, in either variant. -/
def exchangeValue (r : Except AtomicU128 AtomicU128) : AtomicU128 :=
  match r with
  | Except.ok v => v
  | Except.error v => v

/-- One hardware CAS event against the shared cell: a pending operation's
`(expected, desired)` operand pair, applied indivisibly. The event's
effect on the cell is the `mem` component of `cas128`. -/
def applyEvent (mem : AtomicU128) (e : AtomicU128 × AtomicU128) : AtomicU128 :=
  (cas128 mem e.1 e.2).mem

/-- The cell contents after an interleaved history of hardware CAS
events, starting from `init`. Every operation of the library (`store`,
`swap`, `compare_exchange`, ...) is a sequence of `cas128` calls, so any
concurrent execution's effect on the cell is `runEvents init es` for
some interleaving `es` of the operations' attempts. -/
def runEvents (init : AtomicU128) (es : List (AtomicU128 × AtomicU128)) : AtomicU128 :=
  es.foldl applyEvent init

/-! ## Helper lemmas -/

/-- `cas128` when the location holds the expected value. -/
theorem cas128_of_eq (m c w : AtomicU128) (h : m = c) :
    cas128 m c w = ⟨true, w, c⟩ := by
  simp [cas128, h]

/-- `cas128` when the location differs from the expected value. -/
theorem cas128_of_ne (m c w : AtomicU128) (h : m ≠ c) :
    cas128 m c w = ⟨false, m, m⟩ := by
  simp [cas128, h]

/-- `load` returns the current contents and leaves them unchanged. -/
theorem load_eq (m : AtomicU128) : AtomicU128.load m = (m, m) := by
  unfold AtomicU128.load cas128
  split <;> simp_all

/-- The retry loop succeeds within two attempts in an uninterfered
execution, installing `val` and observing the prior contents. -/
theorem storeLoop_two (m v : AtomicU128) :
    storeLoop 2 m AtomicU128.zero v = some (v, m) := by
  by_cases h : m = AtomicU128.zero
  · simp [storeLoop, cas128, h]
  · simp [storeLoop, cas128, h]

/-- One attempt suffices exactly when the cell already holds zero. -/
theorem storeLoop_one (m v : AtomicU128) :
    storeLoop 1 m AtomicU128.zero v =
      (if m = AtomicU128.zero then some (v, m) else none) := by
  by_cases h : m = AtomicU128.zero
  · simp [storeLoop, cas128, h]
  · simp [storeLoop, cas128, h]

/-- One hardware CAS event either leaves the cell unchanged or installs
its desired operand whole. -/
theorem applyEvent_cases (m : AtomicU128) (e : AtomicU128 × AtomicU128) :
    applyEvent m e = m ∨ applyEvent m e = e.2 := by
  unfold applyEvent cas128
  split <;> simp

/-! ## Claim theorems -/

/-- C1: for every location contents `m`, if `m` equals the expected value
then `cas128` sets the location to the desired value and reports success
with the expected slot left holding `m`; if `m` differs from the expected
value then the location is unchanged, the call reports failure, and the
location's actual value `m` is written back into the expected slot. -/
theorem cas128_contract (m c w : AtomicU128) :
    (m = c → cas128 m c w = ⟨true, w, m⟩) ∧
    (m ≠ c → cas128 m c w = ⟨false, m, m⟩) := by
  constructor
  · intro h
    subst h
    simp [cas128]
  · intro h
    simp [cas128, h]

/-- Witness for C1 at the source tests' inputs: success at
`((1,2), (1,2), (2,3))` and failure at `((1,2), (2,3), (0,0))`. -/
theorem cas128_contract_witness :
    cas128 (AtomicU128.new 1 2) (AtomicU128.new 1 2) (AtomicU128.new 2 3) =
      ⟨true, AtomicU128.new 2 3, AtomicU128.new 1 2⟩ ∧
    cas128 (AtomicU128.new 1 2) (AtomicU128.new 2 3) AtomicU128.zero =
      ⟨false, AtomicU128.new 1 2, AtomicU128.new 1 2⟩ :=
  ⟨(cas128_contract (AtomicU128.new 1 2) (AtomicU128.new 1 2) (AtomicU128.new 2 3)).1 rfl,
   (cas128_contract (AtomicU128.new 1 2) (AtomicU128.new 2 3) AtomicU128.zero).2 (by decide)⟩

/-- C2: `compare_exchange(expected, new)` on prior contents `m` returns
the success variant carrying `m` iff `m` equals `expected`, in which case
the stored value becomes `new`; otherwise it returns the failure variant
carrying the true current value `m` and the stored value is unchanged. -/
theorem compare_exchange_contract (m e n : AtomicU128) :
    ((AtomicU128.compare_exchange m e n).1 = Except.ok m ↔ m = e) ∧
    (m = e → AtomicU128.compare_exchange m e n = (Except.ok m, n)) ∧
    (m ≠ e → AtomicU128.compare_exchange m e n = (Except.error m, m)) := by
  by_cases h : m = e
  · subst h
    simp [AtomicU128.compare_exchange, cas128]
  · simp [AtomicU128.compare_exchange, cas128, h]

/-- Witness for C2 at the spec's scenarios: success at prior `(1,2)`,
`compare_exchange((1,2), (9,9))`; failure at prior `(1,1)`,
`compare_exchange((1,2), (1,2))`. -/
theorem compare_exchange_contract_witness :
    AtomicU128.compare_exchange (AtomicU128.new 1 2) (AtomicU128.new 1 2) (AtomicU128.new 9 9) =
      (Except.ok (AtomicU128.new 1 2), AtomicU128.new 9 9) ∧
    AtomicU128.compare_exchange (AtomicU128.new 1 1) (AtomicU128.new 1 2) (AtomicU128.new 1 2) =
      (Except.error (AtomicU128.new 1 1), AtomicU128.new 1 1) :=
  ⟨(compare_exchange_contract (AtomicU128.new 1 2) (AtomicU128.new 1 2)
      (AtomicU128.new 9 9)).2.1 rfl,
   (compare_exchange_contract (AtomicU128.new 1 1) (AtomicU128.new 1 2)
      (AtomicU128.new 1 2)).2.2 (by decide)⟩

/-- C3: `compare_and_swap(expected, new)` on prior contents `m` (a single
`cas128` attempt, as its definition shows) returns `m`, the value in
memory at the attempt, whether or not the swap occurred; the stored value
becomes `new` if `m` equals `expected` and is unchanged otherwise. -/
theorem compare_and_swap_contract (m e n : AtomicU128) :
    AtomicU128.compare_and_swap m e n = (m, if m = e then n else m) := by
  by_cases h : m = e
  · subst h
    simp [AtomicU128.compare_and_swap, cas128]
  · simp [AtomicU128.compare_and_swap, cas128, h]

/-- C4: `load()` on stored contents `m` returns exactly `m` and leaves the
store holding `m`, via one CAS with expected = desired = zero: its flag is
success exactly when `m` is zero (in which case zero is written back, a
no-op), the cell keeps holding `m`, and the written-back expected slot
holds `m` in both branches. -/
theorem load_contract (m : AtomicU128) :
    AtomicU128.load m = (m, m) ∧
    (cas128 m AtomicU128.zero AtomicU128.zero).ok = decide (m = AtomicU128.zero) ∧
    (cas128 m AtomicU128.zero AtomicU128.zero).mem = m ∧
    (cas128 m AtomicU128.zero AtomicU128.zero).cmp = m := by
  by_cases h : m = AtomicU128.zero
  · subst h
    simp [AtomicU128.load, cas128]
  · simp [AtomicU128.load, cas128, h]

/-- C5: for every value `v` and every initial contents `m`, `store(v)`
(two CAS attempts suffice uninterfered) followed by `load()` returns
exactly `v`, with both 64-bit halves bit-identical to those of `v`. -/
theorem store_then_load (m v : AtomicU128) :
    (AtomicU128.store 2 m v).map (fun x => (AtomicU128.load x).1) = some v ∧
    (AtomicU128.store 2 m v).map (fun x => ((AtomicU128.load x).1.lo, (AtomicU128.load x).1.hi))
      = some (v.lo, v.hi) := by
  simp [AtomicU128.store, storeLoop_two, load_eq]

/-- C6: for every value `v` and prior contents `m`, `swap(v)` returns `m`,
the value held immediately before the call, afterwards the stored value is
`v`, and a subsequent `load()` returns `v`. -/
theorem swap_contract (m v : AtomicU128) :
    AtomicU128.swap 2 m v = some (m, v) ∧
    (AtomicU128.swap 2 m v).map (fun p => (AtomicU128.load p.2).1) = some v := by
  simp [AtomicU128.swap, storeLoop_two, load_eq]

/-- C7: for every stored contents and argument pair,
`compare_exchange_weak` returns exactly the same result and has exactly
the same effect on the stored value as `compare_exchange`; it never
spuriously fails (it succeeds exactly when the contents equal the
expected value). -/
theorem compare_exchange_weak_eq (m e n : AtomicU128) :
    AtomicU128.compare_exchange_weak m e n = AtomicU128.compare_exchange m e n ∧
    ((AtomicU128.compare_exchange_weak m e n).1 = Except.ok m ↔ m = e) := by
  refine ⟨rfl, ?_⟩
  by_cases h : m = e
  · subst h
    simp [AtomicU128.compare_exchange_weak, AtomicU128.compare_exchange, cas128]
  · simp [AtomicU128.compare_exchange_weak, AtomicU128.compare_exchange, cas128, h]

/-- C8: the cell contents after any interleaved history of hardware CAS
events is either the initial value or the desired operand of one event,
taken whole: no observer sees `lo` from one written value and `hi` from
another. -/
theorem no_torn_values (init : AtomicU128) (es : List (AtomicU128 × AtomicU128)) :
    runEvents init es = init ∨ runEvents init es ∈ es.map Prod.snd := by
  induction es generalizing init with
  | nil =>
    exact Or.inl rfl
  | cons e es ih =>
    have hstep : runEvents init (e :: es) = runEvents (applyEvent init e) es := rfl
    rw [hstep]
    rcases ih (applyEvent init e) with h1 | h1
    · rw [h1]
      rcases applyEvent_cases init e with h2 | h2
      · exact Or.inl h2
      · refine Or.inr ?_
        rw [List.map_cons, List.mem_cons]
        exact Or.inl h2
    · refine Or.inr ?_
      rw [List.map_cons, List.mem_cons]
      exact Or.inr h1

/-- C9: in an uninterfered execution the retry loop of `store(v)` and
`swap(v)` terminates within two `cas128` attempts from every initial
contents `m`: started with expected = zero, fuel 2 always succeeds,
installing `v` and observing `m`, while a single attempt succeeds exactly
when `m` is zero. -/
theorem store_swap_two_attempts (m v : AtomicU128) :
    storeLoop 2 m AtomicU128.zero v = some (v, m) ∧
    storeLoop 1 m AtomicU128.zero v = (if m = AtomicU128.zero then some (v, m) else none) ∧
    AtomicU128.store 2 m v = some v ∧
    AtomicU128.swap 2 m v = some (m, v) := by
  refine ⟨storeLoop_two m v, storeLoop_one m v, ?_, ?_⟩
  · simp [AtomicU128.store, storeLoop_two]
  · simp [AtomicU128.swap, storeLoop_two]

/-- C10: for every stored contents and argument pair,
`compare_and_swap(expected, new)` and `compare_exchange(expected, new)`
have identical effects on the stored value, and the value returned by
`compare_and_swap` equals the value carried inside `compare_exchange`'s
result, in both the success and the failure variant. -/
theorem cas_exchange_agreement (m e n : AtomicU128) :
    (AtomicU128.compare_and_swap m e n).2 = (AtomicU128.compare_exchange m e n).2 ∧
    (AtomicU128.compare_and_swap m e n).1 =
      exchangeValue (AtomicU128.compare_exchange m e n).1 := by
  by_cases h : m = e
  · subst h
    simp [AtomicU128.compare_and_swap, AtomicU128.compare_exchange, cas128, exchangeValue]
  · simp [AtomicU128.compare_and_swap, AtomicU128.compare_exchange, cas128, exchangeValue, h]
